import Mathlib

/-!
Verification of the bibliography entry segmenter and the surrounding tool
operations of the mcp-tesseract repository
(src/mcptesseract/server/tesseract.py).

The Python code is shallowly embedded: strings are `List Char` (wrapped in
`String` at the record boundary), the regular expressions of the source are
translated into explicit deterministic matchers (each one documented with the
pattern it implements and an argument why the backtracking of the Python
engine cannot produce a different match), and the SQLite store is modelled as
an in-memory association table.  Character classes model the ASCII fragment
of the Python semantics (the ground-truth inputs of this repository are
ASCII): `\w` is `[A-Za-z0-9_]`, `\s` is the ASCII whitespace set, and
`str.lower`/`str.strip` act on ASCII.
-/

/-- ASCII model of the character class recognised by Python `str.strip()`. -/
def isPySpace (c : Char) : Bool :=
  c == ' ' || c == '\t' || c == '\n' || c == '\r' || c == '\x0b' || c == '\x0c'

/-- ASCII decimal digit, the class `\d`. -/
def isDigitCh (c : Char) : Bool := '0' ≤ c && c ≤ '9'

/-- ASCII uppercase letter, the class `[A-Z]`. -/
def isUpperCh (c : Char) : Bool := 'A' ≤ c && c ≤ 'Z'

/-- ASCII lowercase letter, the class `[a-z]`. -/
def isLowerCh (c : Char) : Bool := 'a' ≤ c && c ≤ 'z'

/-- ASCII letter. -/
def isLetterCh (c : Char) : Bool := isUpperCh c || isLowerCh c

/-- ASCII model of the word class `\w`: letters, digits and underscore. -/
def isWordCh (c : Char) : Bool := isUpperCh c || isLowerCh c || isDigitCh c || c == '_'

/-- Python `s.strip()` on a character list: drop leading and trailing
whitespace. -/
def stripL (l : List Char) : List Char :=
  ((l.dropWhile isPySpace).reverse.dropWhile isPySpace).reverse

/-- Python `s.strip()` at the `String` level. -/
def pyStrip (s : String) : String := String.mk (stripL s.data)

/-- Membership of the characters stripped by Python `s.strip('. ')`. -/
def isDotSpace (c : Char) : Bool := c == '.' || c == ' '

/-- Python `s.strip('. ')`: drop leading and trailing periods and spaces. -/
def stripDotSpace (l : List Char) : List Char :=
  ((l.dropWhile isDotSpace).reverse.dropWhile isDotSpace).reverse

/-- Python substring containment `sep in hay` (for a non-empty `sep`). -/
def containsSub (sep : List Char) : List Char → Bool
  | [] => sep.isEmpty
  | c :: rest => sep.isPrefixOf (c :: rest) || containsSub sep rest

/-- Worker for `splitOnSub`; the fuel is one unit per consumed character, so
`fuel = l.length` always suffices and the fuel-exhausted branch is
unreachable from `splitOnSub`. -/
def splitOnSubF (sep : List Char) : Nat → List Char → List Char → List (List Char)
  | _, [], acc => [acc.reverse]
  | 0, l, acc => [acc.reverse ++ l]
  | fuel + 1, c :: rest, acc =>
    if sep.isPrefixOf (c :: rest) then
      acc.reverse :: splitOnSubF sep fuel (rest.drop (sep.length - 1)) []
    else
      splitOnSubF sep fuel rest (c :: acc)

/-- Python `l.split(sep)` for a non-empty separator: split on every
non-overlapping occurrence, scanning left to right. -/
def splitOnSub (l sep : List Char) : List (List Char) := splitOnSubF sep l.length l []

/-- Worker for `replaceSub`, fueled like `splitOnSubF`. -/
def replaceSubF (sep : List Char) : Nat → List Char → List Char
  | _, [] => []
  | 0, l => l
  | fuel + 1, c :: rest =>
    if sep.isPrefixOf (c :: rest) then
      replaceSubF sep fuel (rest.drop (sep.length - 1))
    else
      c :: replaceSubF sep fuel rest

/-- Python `l.replace(sep, '')` for a non-empty `sep`: delete every
non-overlapping occurrence, scanning left to right. -/
def replaceSub (sep l : List Char) : List Char := replaceSubF sep l.length l

/-- Digit list to number, the semantics of Python `int()` on a `\d{4}`
match. -/
def digitsToNat (l : List Char) : Nat := l.foldl (fun n c => n * 10 + (c.toNat - 48)) 0

/-- The separator `" See "`. -/
def seeL : List Char := (" See ").data

/-- The separator `". See "`. -/
def dotSeeL : List Char := (". See ").data

/-- The separator `". "`. -/
def dotSpaceL : List Char := (". ").data

/-- The literal header line `"Author Entries"`. -/
def headerL : List Char := ("Author Entries").data

/-- Model of `re.search(r'\d{4}', s)`, used only as a test: does `s` contain four
consecutive digits? -/
def hasFourDigits : List Char → Bool
  | a :: b :: c :: d :: rest =>
    (isDigitCh a && isDigitCh b && isDigitCh c && isDigitCh d) ||
      hasFourDigits (b :: c :: d :: rest)
  | _ => false

/-! ### Regular expression matchers

Each matcher below implements one regular expression of the source,
specialised to the position where `re.search` or `re.match` tries it.  A
`re.search` is the scan of all start positions, leftmost first; at a fixed
start position, the patterns used by the source are deterministic: every
backtracking alternative of the Python engine either fails at the same
place or reproduces the same match (arguments in the comments). -/

/-- Right-hand word boundary `\b` after a word character: the next character
is absent or not a word character. -/
def rightB : List Char → Bool
  | [] => true
  | c :: _ => !isWordCh c

/-- Left-hand word boundary `\b` before a word character: there is no
previous character, or it is not a word character. -/
def prevNonWord : Option Char → Bool
  | none => true
  | some p => !isWordCh p

/-- Left-hand boundary used by the claim wording of the library rule:
previous character absent or not a letter. -/
def prevNonLetter : Option Char → Bool
  | none => true
  | some p => !isLetterCh p

/-- Scan of `re.search` for patterns that start with `\b` followed by a word
character: try the position matcher `f` at every position whose previous
character satisfies `goodPrev` (at such positions `\b` holds exactly when
the current character is a word character, which `f` demands). -/
def bSearchAux {α : Type} (goodPrev : Option Char → Bool) (f : List Char → Option α) :
    Option Char → List Char → Option α
  | _, [] => none
  | prev, c :: rest =>
    if goodPrev prev then
      match f (c :: rest) with
      | some m => some m
      | none => bSearchAux goodPrev f (some c) rest
    else bSearchAux goodPrev f (some c) rest

/-- Scan of `re.search` for patterns with no leading boundary: try the
position matcher `f` at every position, leftmost first. -/
def scanSearch {α : Type} (f : List Char → Option α) : List Char → Option α
  | [] => f []
  | c :: rest =>
    match f (c :: rest) with
    | some m => some m
    | none => scanSearch f rest

/-- Pattern `[A-Z]{n}\b` at the current position: `n` uppercase letters followed by
a right word boundary; yields the `n` letters. -/
def tryLen (n : Nat) (l : List Char) : Option (List Char) :=
  if n ≤ l.length && (l.take n).all isUpperCh && rightB (l.drop n) then some (l.take n)
  else none

/-- Pattern `[A-Z]{2,4}\b` at the current position, greedy: four letters first, then
three, then two (the quantifier `{2,4}` is greedy). -/
def libMatchAt (l : List Char) : Option (List Char) :=
  match tryLen 4 l with
  | some m => some m
  | none =>
    match tryLen 3 l with
    | some m => some m
    | none => tryLen 2 l

/-- Model of `re.search(r'\b([A-Z]{2,4})\b', entry)` (line 351 of tesseract.py),
returning the captured group. -/
def libSearch (e : List Char) : Option (List Char) := bSearchAux prevNonWord libMatchAt none e

/-- Pattern `\d{4}\b` at the current position: exactly four digits followed by a
right word boundary (a fifth digit is a word character, so a longer digit
run rejects the position). -/
def yearMatchAt (l : List Char) : Option (List Char) :=
  match l with
  | a :: b :: c :: d :: rest =>
    if isDigitCh a && isDigitCh b && isDigitCh c && isDigitCh d && rightB rest then
      some [a, b, c, d]
    else none
  | _ => none

/-- Model of `re.search(r'\b(\d{4})\b', remaining)` (line 389 of tesseract.py). -/
def yearSearch (r : List Char) : Option (List Char) := bSearchAux prevNonWord yearMatchAt none r

/-- Pattern `\d+\s*p\.` at the current position.  `\d+` is greedy and a shortened
digit run would put a digit where `\s*p` must match, so only the maximal
digit run can succeed; the same argument applies to `\s*`. -/
def pagesMatchAt (l : List Char) : Option (List Char) :=
  let ds := l.takeWhile isDigitCh
  if ds.isEmpty then none
  else
    let r1 := l.drop ds.length
    let ss := r1.takeWhile isPySpace
    match r1.drop ss.length with
    | 'p' :: '.' :: _ => some (ds ++ ss ++ ['p', '.'])
    | _ => none

/-- Stage `\s*([^,]+)` after a matched colon: `\s*` is greedy, and when the
character after the maximal space run cannot start `[^,]+` (it is a comma or
the string ends) the engine gives back exactly one space, which is itself a
legal `[^,]` character; giving back further spaces reproduces the same stop
position at the first comma, hence the same continuation.  Returns the
captured group and the rest of the input (starting at the first comma, or
empty). -/
def group2Grab (r1 : List Char) : Option (List Char × List Char) :=
  let ss := r1.takeWhile isPySpace
  let r := r1.drop ss.length
  match r with
  | c :: _ =>
    if c == ',' then
      if ss.isEmpty then none
      else
        let start := r1.drop (ss.length - 1)
        some (start.takeWhile (fun x => !(x == ',')), start.dropWhile (fun x => !(x == ',')))
    else
      some (r.takeWhile (fun x => !(x == ',')), r.dropWhile (fun x => !(x == ',')))
  | [] =>
    if ss.isEmpty then none
    else
      let start := r1.drop (ss.length - 1)
      some (start.takeWhile (fun x => !(x == ',')), start.dropWhile (fun x => !(x == ',')))

/-- Pattern `([^:]+):\s*([^,]+),\s*(\d{4})\.\s*(\d+\s*p\.)` at the current position
(line 381 of tesseract.py).  `[^:]+` is greedy and stops at the first colon;
shortening it puts a non-colon character where `:` must match, so the stage
is deterministic, and likewise for the later stages (see `group2Grab` and
`pagesMatchAt`; `(\d{4})\.` demands a maximal digit run of length exactly
four because a fifth digit would sit where `\.` must match). -/
def combinedPubAt (l : List Char) :
    Option (List Char × List Char × List Char × List Char) :=
  let g1 := l.takeWhile (fun x => !(x == ':'))
  if g1.isEmpty then none
  else
    match l.drop g1.length with
    | ':' :: r1 =>
      match group2Grab r1 with
      | some g2r =>
        match g2r.2 with
        | ',' :: r3 =>
          let ss2 := r3.takeWhile isPySpace
          let r4 := r3.drop ss2.length
          let ds := r4.takeWhile isDigitCh
          if ds.length == 4 then
            match r4.drop 4 with
            | '.' :: r5 =>
              let ss3 := r5.takeWhile isPySpace
              let r6 := r5.drop ss3.length
              match pagesMatchAt r6 with
              | some g4 => some (g1, g2r.1, ds, g4)
              | none => none
            | _ => none
          else none
        | _ => none
      | none => none
    | _ => none

/-- Pattern `([^:]+):\s*([^,]+)` at the current position (line 399 of
tesseract.py). -/
def placePubAt (l : List Char) : Option (List Char × List Char) :=
  let g1 := l.takeWhile (fun x => !(x == ':'))
  if g1.isEmpty then none
  else
    match l.drop g1.length with
    | ':' :: r1 =>
      match group2Grab r1 with
      | some g2r => some (g1, g2r.1)
      | none => none
    | _ => none

/-- Model of `re.match(r'^([^.]+(?:\.\.\.[^.]*)?)', middle)` (line 372 of
tesseract.py): the maximal leading run of non-period characters; when it is
followed by a literal ellipsis `...` the match extends over the ellipsis and
the following run of non-period characters (the optional group can start
only at the maximal stop position, because every shorter stop position puts
a non-period character where `\.` would have to match). -/
def titleMatchAt (l : List Char) : Option (List Char) :=
  let run := l.takeWhile (fun x => !(x == '.'))
  if run.isEmpty then none
  else
    let rest := l.drop run.length
    if ['.', '.', '.'].isPrefixOf rest then
      some (run ++ ['.', '.', '.'] ++ (rest.drop 3).takeWhile (fun x => !(x == '.')))
    else some run

/-! ### The bibliography entry record and the segmenter -/

/-- The result dictionary of `parse_bibliography_entry` (lines 321-330 of
tesseract.py): every field starts as null. -/
structure Entry where
  author : Option String
  title : Option String
  note : Option String
  year : Option Nat
  place : Option String
  publisher : Option String
  pages : Option String
  library : Option String
  deriving DecidableEq, Repr

/-- The freshly initialised result dictionary. -/
def emptyEntry : Entry :=
  { author := none, title := none, note := none, year := none,
    place := none, publisher := none, pages := none, library := none }

/-- Cross-reference branch (lines 333-338): split on `'. See '`; only a
split into exactly two parts populates `author` and `note`, every other
shape returns the still-empty record. -/
def crossRef (e : List Char) : Entry :=
  match splitOnSub e dotSeeL with
  | [p0, p1] =>
    { emptyEntry with
        author := some (String.mk (stripL p0)),
        note := some (("See ") ++ String.mk p1) }
  | _ => emptyEntry

/-- Note / publication-info disambiguation (lines 356-366): the pair of the
optional trailing note and the joined middle text. -/
def noteMid (parts : List (List Char)) (last_part : List Char) :
    Option (List Char) × List Char :=
  if !last_part.isEmpty && !hasFourDigits last_part && !last_part.contains ':' then
    (some last_part, List.intercalate dotSpaceL ((parts.drop 1).dropLast))
  else (none, List.intercalate dotSpaceL (parts.drop 1))

/-- Library-code stripping (lines 368-369): remove the found code from the
middle text when it occurs there, then strip periods and spaces. -/
def libStrip (lib : Option (List Char)) (middle : List Char) : List Char :=
  match lib with
  | some l => if containsSub l middle then stripDotSpace (replaceSub l middle) else middle
  | none => middle

/-- Title extraction (lines 372-377): the pair of the optional title and the
publication remainder. -/
def titleRem (middle : List Char) : Option String × List Char :=
  match titleMatchAt middle with
  | some g1 => (some (String.mk (stripL g1)), stripDotSpace (middle.drop g1.length))
  | none => (none, middle)

/-- Publication-information extraction (lines 381-402): the tuple
(place, publisher, year, pages).  The combined pattern wins when it matches;
otherwise year, pages, and place/publisher are extracted independently. -/
def pubFields (remaining : List Char) :
    Option String × Option String × Option Nat × Option String :=
  match scanSearch combinedPubAt remaining with
  | some g =>
    (some (String.mk (stripL g.1)), some (String.mk (stripL g.2.1)),
      some (digitsToNat g.2.2.1), some (String.mk (stripL g.2.2.2)))
  | none =>
    let y := (yearSearch remaining).map digitsToNat
    let pg := (scanSearch pagesMatchAt remaining).map String.mk
    match scanSearch placePubAt remaining with
    | some pp => (some (String.mk (stripL pp.1)), some (String.mk (stripL pp.2)), y, pg)
    | none => (none, none, y, pg)

/-- General heuristic cascade (lines 347-404), reached when the line is not
a cross-reference and splits on `'. '` into at least two parts. -/
def generalCascade (e : List Char) (parts : List (List Char)) : Entry :=
  let lib := libSearch e
  let last_part := if parts.length > 2 then stripL (parts.getLastD []) else []
  let nm := noteMid parts last_part
  let tr := titleRem (libStrip lib nm.2)
  let pf := pubFields tr.2
  { author := some (String.mk (stripL (parts.headD []))),
    title := tr.1,
    note := nm.1.map String.mk,
    year := pf.2.2.1,
    place := pf.1,
    publisher := pf.2.1,
    pages := pf.2.2.2,
    library := lib.map String.mk }

/-- Body of the segmenter after the validity check (lines 320-404). -/
def segmentEntry (e : List Char) : Entry :=
  if containsSub seeL e = true ∧ e.count '.' ≤ 2 then crossRef e
  else if (splitOnSub e dotSpaceL).length < 2 then
    { emptyEntry with author := some (String.mk e) }
  else generalCascade e (splitOnSub e dotSpaceL)

/-- The function `parse_bibliography_entry` (lines 306-404 of tesseract.py): strip the
line; an empty or literal header line is not an entry; otherwise run the
heuristic cascade. -/
def parse_bibliography_entry (entry_text : String) : Option Entry :=
  if stripL entry_text.data = [] ∨ stripL entry_text.data = headerL then none
  else some (segmentEntry (stripL entry_text.data))

/-! ### Claim-side characterisations of the library-code rule

The spec describes the library rule as "the first token of 2 to 4
consecutive uppercase letters, bounded by non-letter characters".  The two
definitions below transcribe that wording: a token is a maximal uppercase
run whose length lies between two and four and whose neighbours (when
present) fail the bounding class; the scan returns the leftmost such token.
`claimLib` uses the amended bounding class (non-word characters, the `\b`
semantics of the code); `claimLibLetter` uses the literal wording of the
claim (non-letter characters). -/

/-- Token at the current position per the amended claim wording: the
maximal run of uppercase letters, accepted when its length is between two
and four and the character after it (if any) is not a word character. -/
def claimMatchAt (l : List Char) : Option (List Char) :=
  let run := l.takeWhile isUpperCh
  if 2 ≤ run.length && run.length ≤ 4 && rightB (l.drop run.length) then some run
  else none

/-- Leftmost token of two to four consecutive uppercase letters bounded by
non-word characters (amended claim wording). -/
def claimLib (e : List Char) : Option (List Char) := bSearchAux prevNonWord claimMatchAt none e

/-- Right-hand bound per the literal claim wording: next character absent or
not a letter. -/
def rightBLetter : List Char → Bool
  | [] => true
  | c :: _ => !isLetterCh c

/-- Token at the current position per the literal claim wording: the
maximal run of uppercase letters, accepted when its length is between two
and four and the character after it (if any) is not a letter. -/
def claimLetterMatchAt (l : List Char) : Option (List Char) :=
  let run := l.takeWhile isUpperCh
  if 2 ≤ run.length && run.length ≤ 4 && rightBLetter (l.drop run.length) then some run
  else none

/-- Leftmost token of two to four consecutive uppercase letters bounded by
non-letter characters (the claim as literally stated). -/
def claimLibLetter (e : List Char) : Option (List Char) :=
  bSearchAux prevNonLetter claimLetterMatchAt none e

/-! ### The persisted row of the batch ingestor -/

/-- One row of the bibliography table as the batch ingestor inserts it
(lines 453-466 of tesseract.py): the parsed fields plus the verbatim
`full_entry` column. -/
structure BibRow where
  author : Option String
  title : Option String
  note : Option String
  year : Option Nat
  place : Option String
  publisher : Option String
  pages : Option String
  library : Option String
  full_entry : String
  deriving DecidableEq, Repr

/-- Per-line handling of the batch ingestor (lines 444-466): strip the
line, skip the header and empty lines, run the segmenter, and build the row
that is handed to the store, whose `full_entry` column is the stripped line
itself. -/
def insertedRow (line : String) : Option BibRow :=
  let entry_text := pyStrip line
  if entry_text = ("Author Entries") ∨ entry_text = "" then none
  else
    match parse_bibliography_entry entry_text with
    | some p =>
      some { author := p.author, title := p.title, note := p.note, year := p.year,
             place := p.place, publisher := p.publisher, pages := p.pages,
             library := p.library, full_entry := entry_text }
    | none => none

/-! ### Batch ingestor (`process_ground_truth_folder`, lines 407-483)

The filesystem and the store are collaborators: a folder is the list of the
read outcomes of its text files, and the store is an oracle `ins` deciding
whether one insert succeeds (the code catches a failed insert, counts it,
and continues).  The counters mirror the three counters of the source. -/

/-- Read outcome of one text file: an I/O error, or its content. -/
inductive FileRead where
  | err : FileRead
  | ok : String → FileRead
  deriving DecidableEq, Repr

/-- Whether the file was read without an I/O error. -/
def FileRead.isOk : FileRead → Bool
  | .err => false
  | .ok _ => true

/-- The three counters of `process_ground_truth_folder`. -/
structure IngestCounts where
  total_entries : Nat
  processed_files : Nat
  failed_entries : Nat
  deriving DecidableEq, Repr

/-- Line splitting of one file (line 444): split on newlines, strip each
line, and drop the blank ones. -/
def linesOf (content : String) : List String :=
  ((content.split (fun c => c == '\n')).map pyStrip).filter (fun l => !(l == ""))

/-- Per-entry step of the ingestor loop (lines 446-470): skip header and
blank lines, parse, and count a successful insert in `total_entries` and a
rejected insert in `failed_entries`. -/
def processEntry (ins : Entry → String → Bool) (c : IngestCounts) (entry_text : String) :
    IngestCounts :=
  if entry_text = ("Author Entries") ∨ entry_text = "" then c
  else
    match parse_bibliography_entry entry_text with
    | some p =>
      if ins p entry_text then { c with total_entries := c.total_entries + 1 }
      else { c with failed_entries := c.failed_entries + 1 }
    | none => c

/-- Per-file step (lines 438-475): a read error leaves every counter
unchanged; otherwise all entries of the file are processed and
`processed_files` is incremented once, after the entry loop. -/
def processFile (ins : Entry → String → Bool) (c : IngestCounts) (fr : FileRead) :
    IngestCounts :=
  match fr with
  | .err => c
  | .ok content =>
    let c1 := (linesOf content).foldl (processEntry ins) c
    { c1 with processed_files := c1.processed_files + 1 }

/-- The function `process_ground_truth_folder`: fold the per-file step over the folder,
all counters starting at zero (lines 434-436). -/
def process_ground_truth_folder (ins : Entry → String → Bool) (files : List FileRead) :
    IngestCounts :=
  files.foldl (processFile ins) { total_entries := 0, processed_files := 0, failed_entries := 0 }

/-- Declarative description of the records one file contributes: for every
non-header line, the parsed entry paired with the line. -/
def lineRecord (l : String) : Option (Entry × String) :=
  if l = ("Author Entries") ∨ l = "" then none
  else (parse_bibliography_entry l).map (fun p => (p, l))

/-- All records of one file, in order. -/
def fileRecords (content : String) : List (Entry × String) :=
  (linesOf content).filterMap lineRecord

/-- The contents of the files that were read without an I/O error. -/
def contentsOf (files : List FileRead) : List String :=
  files.filterMap (fun fr => match fr with | .err => none | .ok c => some c)

/-! ### Word-frequency store (lines 124-263)

The SQLite database is modelled as an optional `word_freq` table (absent
until created) behind an optional database file (absent until
`sqlite3.connect` creates it); the table is an association list from words
to counts.  A raised SQLite exception is `Except.error`. -/

/-- A word-frequency database file: the `word_freq` table, or `none` when
the table has not been created. -/
structure WordDb where
  word_freq : Option (List (String × Nat))
  deriving DecidableEq, Repr

/-- ASCII model of Python `str.lower()`. -/
def pyLower (s : String) : String := String.mk (s.data.map Char.toLower)

/-- Worker for `findallWords`; one unit of fuel per consumed character. -/
def wordRunsF : Nat → List Char → List (List Char)
  | _, [] => []
  | 0, _ => []
  | fuel + 1, c :: rest =>
    if isWordCh c then
      let run := (c :: rest).takeWhile isWordCh
      run :: wordRunsF fuel ((c :: rest).drop run.length)
    else wordRunsF fuel rest

/-- Model of `re.findall(r'\w+', text)` (line 144): the maximal runs of word
characters, left to right. -/
def findallWords (l : List Char) : List (List Char) := wordRunsF l.length l

/-- The SQL upsert of line 155-159: insert the word with count 1, or
increment the count of the existing row. -/
def upsertWord (tbl : List (String × Nat)) (w : String) : List (String × Nat) :=
  if tbl.any (fun p => p.1 == w) then
    tbl.map (fun p => if p.1 == w then (p.1, p.2 + 1) else p)
  else tbl ++ [(w, 1)]

/-- The function `store_word_frequencies` on the table level (lines 139-159): lowercase
the file text, tokenise it into `\w+` runs, and upsert each word. -/
def store_word_frequencies (text : String) (tbl : List (String × Nat)) :
    List (String × Nat) :=
  (findallWords (pyLower text).data).foldl (fun t wl => upsertWord t (String.mk wl)) tbl

/-- The row lookup of `query_word_frequency` (line 185): the count stored
under the lowercased word. -/
def wfLookup (tbl : List (String × Nat)) (word : String) : Option Nat :=
  (tbl.find? (fun p => p.1 == pyLower word)).map (fun p => p.2)

/-- The function `query_word_frequency` (lines 168-194): `sqlite3.connect` creates the
database file when it is absent, the `SELECT` on a database without the
`word_freq` table raises `sqlite3.OperationalError` — the function has no
guard and no try block, so the exception escapes (`Except.error`) — and
otherwise the count (or its absence) is reported as a message. -/
def query_word_frequency (word : String) (world : Option WordDb) :
    Except String String × Option WordDb :=
  let db := match world with
    | none => WordDb.mk none
    | some d => d
  match db.word_freq with
  | none => (Except.error ("sqlite3.OperationalError: no such table: word_freq"), some db)
  | some tbl =>
    match wfLookup tbl word with
    | some n => (Except.ok (word ++ (" appears ") ++ toString n ++ (" time(s).")), some db)
    | none => (Except.ok (word ++ (" does not appear in the database.")), some db)

/-- The function `clear_word_frequencies` (lines 229-263): a missing database file and a
missing table are reported as messages; otherwise the table is emptied.
The body is wrapped in try/except, so no exception escapes. -/
def clear_word_frequencies (world : Option WordDb) :
    Except String String × Option WordDb :=
  match world with
  | none => (Except.ok ("Error: Database file not found at word_freq.db"), none)
  | some db =>
    match db.word_freq with
    | none =>
      (Except.ok ("Table word_freq does not exist in word_freq.db. Nothing to delete."),
        some db)
    | some _ =>
      (Except.ok ("Successfully deleted all word frequencies from word_freq.db."),
        some (WordDb.mk (some [])))

/-- The worked example line of the spec. -/
def txuLine : String := "Smith, John. A History of Texas. Austin: Jones, 1950. 200 p. TXU"

/-- The row the ingestor builds for the line `"Smith"`. -/
def smithRow : BibRow :=
  { author := some ("Smith"), title := none, note := none, year := none,
    place := none, publisher := none, pages := none, library := none,
    full_entry := ("Smith") }

/-! ### Helper lemmas -/

theorem mk_eq_iff_data (l : List Char) (s : String) : String.mk l = s ↔ l = s.data :=
  ⟨fun h => congrArg String.data h, fun h => by rw [h]⟩

theorem splitOnSubF_no_occ (sep : List Char) :
    ∀ (fuel : Nat) (l acc : List Char),
      containsSub sep l = false → splitOnSubF sep fuel l acc = [acc.reverse ++ l] := by
  intro fuel
  induction fuel with
  | zero =>
    intro l acc h
    cases l with
    | nil => simp [splitOnSubF]
    | cons c rest => rfl
  | succ n ih =>
    intro l acc h
    cases l with
    | nil => simp [splitOnSubF]
    | cons c rest =>
      unfold containsSub at h
      simp only [Bool.or_eq_false_iff] at h
      unfold splitOnSubF
      rw [if_neg (by simp [h.1])]
      rw [ih rest (c :: acc) h.2]
      simp

theorem splitOnSub_no_occ (l sep : List Char) (h : containsSub sep l = false) :
    splitOnSub l sep = [l] := by
  unfold splitOnSub
  rw [splitOnSubF_no_occ sep l.length l [] h]
  simp

/-! ### C6: the segmenter is total and never raises -/

/-- C6: for every input string the segmenter terminates with a value (the
embedding is a total function); it returns no record exactly for the lines
whose trimmed form is empty or the literal header, and in every other case
it returns a record. -/
theorem c6_never_raises (s : String) :
    parse_bibliography_entry s = none ↔
      (pyStrip s = "" ∨ pyStrip s = ("Author Entries")) := by
  unfold parse_bibliography_entry pyStrip
  by_cases h : stripL s.data = [] ∨ stripL s.data = headerL
  · rw [if_pos h]
    simp only [eq_self_iff_true, true_iff]
    rcases h with h | h
    · exact Or.inl (by rw [h])
    · exact Or.inr (by rw [h]; rfl)
  · rw [if_neg h]
    constructor
    · intro hc; exact absurd hc (by simp)
    · intro hc
      exfalso
      apply h
      rcases hc with hc | hc
      · exact Or.inl ((mk_eq_iff_data _ _).mp hc)
      · exact Or.inr ((mk_eq_iff_data _ _).mp hc)

/-! ### C1: cross-reference lines -/

/-- C1 (amended): for every line that contains `" See "`, has at most two
periods, and splits on `". See "` into exactly two parts, the segmenter
returns the record whose author is the trimmed first part and whose note is
`"See "` followed by the second part, with every other field null. -/
theorem c1_crossref_amended (line : String) (a b : List Char)
    (h3 : containsSub seeL (stripL line.data) = true)
    (h4 : (stripL line.data).count '.' ≤ 2)
    (h5 : splitOnSub (stripL line.data) dotSeeL = [a, b]) :
    parse_bibliography_entry line =
      some { emptyEntry with
               author := some (String.mk (stripL a)),
               note := some (("See ") ++ String.mk b) } := by
  have hne : stripL line.data ≠ [] := by
    intro h
    rw [h] at h3
    exact absurd h3 (by decide)
  have hnh : stripL line.data ≠ headerL := by
    intro h
    rw [h] at h3
    exact absurd h3 (by decide)
  unfold parse_bibliography_entry
  rw [if_neg (by tauto)]
  unfold segmentEntry
  rw [if_pos ⟨h3, h4⟩]
  unfold crossRef
  rw [h5]

/-- Witness for C1 at the line `"Alpha. See Beta"`. -/
theorem c1_crossref_witness :
    containsSub seeL (stripL ("Alpha. See Beta").data) = true ∧
      (stripL ("Alpha. See Beta").data).count '.' ≤ 2 ∧
      splitOnSub (stripL ("Alpha. See Beta").data) dotSeeL =
        [("Alpha").data, ("Beta").data] ∧
      parse_bibliography_entry ("Alpha. See Beta") =
        some { emptyEntry with
                 author := some (String.mk (stripL ("Alpha").data)),
                 note := some (("See ") ++ String.mk ("Beta").data) } :=
  ⟨by decide, by decide, by decide,
    c1_crossref_amended ("Alpha. See Beta") ("Alpha").data ("Beta").data
      (by decide) (by decide) (by decide)⟩

/-- Counterexample for C1 as stated: the line `"A. See B. See C"` contains
`" See "` and exactly two periods, yet the segmenter leaves both author and
note null, instead of author `"A"` and note `"See B. See C"`. -/
theorem c1_crossref_counterexample :
    (parse_bibliography_entry ("A. See B. See C")).map Entry.author = some none ∧
      (parse_bibliography_entry ("A. See B. See C")).map Entry.note = some none ∧
      containsSub seeL (stripL ("A. See B. See C").data) = true ∧
      (stripL ("A. See B. See C").data).count '.' ≤ 2 := by
  decide

/-! ### C9: degenerate cross-reference lines -/

/-- C9: a line that satisfies the cross-reference condition but does not
split on `". See "` into exactly two parts yields the record with every
field null. -/
theorem c9_crossref_degenerate (line : String)
    (h3 : containsSub seeL (stripL line.data) = true)
    (h4 : (stripL line.data).count '.' ≤ 2)
    (h5 : (splitOnSub (stripL line.data) dotSeeL).length ≠ 2) :
    parse_bibliography_entry line = some emptyEntry := by
  have hne : stripL line.data ≠ [] := by
    intro h
    rw [h] at h3
    exact absurd h3 (by decide)
  have hnh : stripL line.data ≠ headerL := by
    intro h
    rw [h] at h3
    exact absurd h3 (by decide)
  unfold parse_bibliography_entry
  rw [if_neg (by tauto)]
  unfold segmentEntry
  rw [if_pos ⟨h3, h4⟩]
  unfold crossRef
  rcases hsp : splitOnSub (stripL line.data) dotSeeL with _ | ⟨x, _ | ⟨y, _ | ⟨z, t⟩⟩⟩
  · rfl
  · rfl
  · rw [hsp] at h5
    simp at h5
  · rfl

/-- Witness for C9 at the line `"X. See Y. See Z"` (two occurrences of
`". See "`, hence a three-way split). -/
theorem c9_crossref_witness :
    containsSub seeL (stripL ("X. See Y. See Z").data) = true ∧
      (stripL ("X. See Y. See Z").data).count '.' ≤ 2 ∧
      (splitOnSub (stripL ("X. See Y. See Z").data) dotSeeL).length ≠ 2 ∧
      parse_bibliography_entry ("X. See Y. See Z") = some emptyEntry :=
  ⟨by decide, by decide, by decide,
    c9_crossref_degenerate ("X. See Y. See Z") (by decide) (by decide) (by decide)⟩

/-! ### C2: lines with no period-space separator -/

/-- C2 (amended): for every line whose trimmed form is non-empty, is not the
literal header, does not satisfy the cross-reference condition, and contains
no occurrence of `". "`, the segmenter returns the record whose author is
the whole trimmed line and whose every other field is null. -/
theorem c2_no_separator_amended (line : String)
    (h1 : stripL line.data ≠ [])
    (h2 : stripL line.data ≠ headerL)
    (h3 : ¬(containsSub seeL (stripL line.data) = true ∧
            (stripL line.data).count '.' ≤ 2))
    (h4 : containsSub dotSpaceL (stripL line.data) = false) :
    parse_bibliography_entry line =
      some { emptyEntry with author := some (pyStrip line) } := by
  unfold parse_bibliography_entry
  rw [if_neg (by tauto)]
  unfold segmentEntry
  rw [if_neg h3]
  rw [splitOnSub_no_occ _ _ h4]
  rw [if_pos (by simp)]
  rfl

/-- Witness for C2 at the line `"Hello world"`. -/
theorem c2_no_separator_witness :
    stripL ("Hello world").data ≠ [] ∧
      stripL ("Hello world").data ≠ headerL ∧
      ¬(containsSub seeL (stripL ("Hello world").data) = true ∧
        (stripL ("Hello world").data).count '.' ≤ 2) ∧
      containsSub dotSpaceL (stripL ("Hello world").data) = false ∧
      parse_bibliography_entry ("Hello world") =
        some { emptyEntry with author := some (pyStrip ("Hello world")) } :=
  ⟨by decide, by decide, by decide, by decide,
    c2_no_separator_amended ("Hello world") (by decide) (by decide) (by decide) (by decide)⟩

/-- Counterexample for C2 as stated: `"Foo See Bar"` contains no `". "` at
all, yet the segmenter takes the cross-reference branch (the line contains
`" See "` and no period) and returns the all-null record, so the author is
not the trimmed line. -/
theorem c2_no_separator_counterexample :
    containsSub dotSpaceL (stripL ("Foo See Bar").data) = false ∧
      (parse_bibliography_entry ("Foo See Bar")).map Entry.author = some none := by
  decide

/-! ### C3: the persisted row carries the trimmed line -/

/-- C3: every row the batch ingestor builds has a `full_entry` column that
is non-empty and equal to the trimmed input line. -/
theorem c3_full_entry_roundtrip (line : String) (row : BibRow)
    (h : insertedRow line = some row) :
    row.full_entry = pyStrip line ∧ row.full_entry ≠ "" := by
  unfold insertedRow at h
  by_cases hg : pyStrip line = ("Author Entries") ∨ pyStrip line = ""
  · rw [if_pos hg] at h
    exact absurd h (by simp)
  · rw [if_neg hg] at h
    cases hp : parse_bibliography_entry (pyStrip line) with
    | none =>
      rw [hp] at h
      exact absurd h (by simp)
    | some p =>
      rw [hp] at h
      simp only [Option.some.injEq] at h
      subst h
      refine ⟨rfl, ?_⟩
      intro hc
      exact hg (Or.inr hc)

/-- Witness for C3 at the line `"Smith"`. -/
theorem c3_full_entry_witness :
    insertedRow ("Smith") = some smithRow ∧
      (smithRow.full_entry = pyStrip ("Smith") ∧ smithRow.full_entry ≠ "") :=
  ⟨by decide, c3_full_entry_roundtrip ("Smith") smithRow (by decide)⟩

/-! ### C4: the worked publication example -/

/-- Counterexample for C4 as stated: on the spec example line the segmenter
leaves `pages` null (the `". "` split already consumed the period of
`"200 p."`, so the pattern `\d+\s*p\.` cannot match), rather than
`"200 p."`. -/
theorem c4_publication_counterexample :
    (parse_bibliography_entry txuLine).map Entry.pages = some none := by
  decide

/-- C4 (amended): on the spec example line the segmenter extracts place
`"Austin"`, publisher `"Jones"` and year 1950, and leaves `pages` null. -/
theorem c4_publication_amended :
    (parse_bibliography_entry txuLine).map
        (fun r => (r.place, r.publisher, r.year, r.pages)) =
      some (some ("Austin"), some ("Jones"), some 1950, none) := by
  decide

/-! ### C5: the library-code rule -/

theorem le_takeWhile_iff (p : Char → Bool) (l : List Char) :
    ∀ n : Nat, n ≤ (l.takeWhile p).length ↔ (n ≤ l.length ∧ (l.take n).all p = true) := by
  induction l with
  | nil => intro n; simp
  | cons c t ih =>
    intro n
    cases n with
    | zero => simp
    | succ k =>
      by_cases hpc : p c = true
      · rw [List.takeWhile_cons_of_pos hpc]
        simp only [List.length_cons, Nat.succ_le_succ_iff, List.take_succ_cons,
          List.all_cons, hpc, Bool.true_and]
        exact ih k
      · rw [List.takeWhile_cons_of_neg (by simp [hpc])]
        simp only [List.length_nil, Nat.le_zero, List.take_succ_cons, List.all_cons]
        constructor
        · intro h; exact absurd h (by simp)
        · intro h
          rw [Bool.and_eq_true] at h
          exact absurd h.2.1 hpc

theorem take_takeWhile_length (p : Char → Bool) (l : List Char) :
    l.take ((l.takeWhile p).length) = l.takeWhile p := by
  induction l with
  | nil => simp
  | cons c t ih =>
    by_cases hpc : p c = true
    · rw [List.takeWhile_cons_of_pos hpc]
      simp [ih]
    · rw [List.takeWhile_cons_of_neg (by simp [hpc])]
      simp

theorem lt_takeWhile_drop (p : Char → Bool) (l : List Char) :
    ∀ n : Nat, n < (l.takeWhile p).length →
      ∃ c t, l.drop n = c :: t ∧ p c = true := by
  induction l with
  | nil => intro n h; simp at h
  | cons c t ih =>
    intro n h
    cases n with
    | zero =>
      refine ⟨c, t, rfl, ?_⟩
      by_cases hpc : p c = true
      · exact hpc
      · rw [List.takeWhile_cons_of_neg (by simp [hpc])] at h
        simp at h
    | succ k =>
      by_cases hpc : p c = true
      · rw [List.takeWhile_cons_of_pos hpc] at h
        simp only [List.length_cons, Nat.succ_lt_succ_iff] at h
        exact ih k h
      · rw [List.takeWhile_cons_of_neg (by simp [hpc])] at h
        simp at h

theorem upper_isWord (c : Char) (h : isUpperCh c = true) : isWordCh c = true := by
  simp [isWordCh, h]

theorem tryLen_eq (n : Nat) (l : List Char) :
    tryLen n l =
      if n = (l.takeWhile isUpperCh).length ∧
          rightB (l.drop ((l.takeWhile isUpperCh).length)) = true then
        some (l.takeWhile isUpperCh)
      else none := by
  unfold tryLen
  by_cases h : n ≤ l.length ∧ (l.take n).all isUpperCh = true
  · have hR : n ≤ (l.takeWhile isUpperCh).length := (le_takeWhile_iff isUpperCh l n).mpr h
    rcases eq_or_lt_of_le hR with heq | hlt
    · by_cases hb : rightB (l.drop n) = true
      · rw [if_pos (by simp [h.1, h.2, hb])]
        rw [if_pos ⟨heq, by rw [← heq]; exact hb⟩]
        rw [heq, take_takeWhile_length]
      · rw [if_neg (by simp [hb])]
        rw [if_neg (by
          intro hc
          rw [← heq] at hc
          exact hb hc.2)]
    · obtain ⟨c, t, hdrop, hup⟩ := lt_takeWhile_drop isUpperCh l n hlt
      have hb : rightB (l.drop n) = false := by
        rw [hdrop]
        simp [rightB, upper_isWord c hup]
      rw [if_neg (by simp [hb])]
      rw [if_neg (by intro hc; exact absurd hc.1 (Nat.ne_of_lt hlt))]
  · rw [if_neg (by
      intro hc
      rw [Bool.and_eq_true, Bool.and_eq_true] at hc
      exact h ⟨by simpa using hc.1.1, hc.1.2⟩)]
    rw [if_neg (by
      intro hc
      apply h
      have hR : (l.takeWhile isUpperCh).length ≤ (l.takeWhile isUpperCh).length := le_refl _
      have := (le_takeWhile_iff isUpperCh l ((l.takeWhile isUpperCh).length)).mp hR
      rw [← hc.1] at this
      exact this)]

theorem libMatchAt_eq_claimMatchAt (l : List Char) : libMatchAt l = claimMatchAt l := by
  unfold libMatchAt claimMatchAt
  rw [tryLen_eq 4 l, tryLen_eq 3 l, tryLen_eq 2 l]
  by_cases hb : rightB (l.drop ((l.takeWhile isUpperCh).length)) = true
  · by_cases h4 : 4 = (l.takeWhile isUpperCh).length
    · rw [if_pos ⟨h4, hb⟩]
      rw [← h4] at hb
      simp [← h4, hb]
    · rw [if_neg (by tauto)]
      by_cases h3 : 3 = (l.takeWhile isUpperCh).length
      · rw [if_pos ⟨h3, hb⟩]
        rw [← h3] at hb
        simp [← h3, hb]
      · rw [if_neg (by tauto)]
        by_cases h2 : 2 = (l.takeWhile isUpperCh).length
        · rw [if_pos ⟨h2, hb⟩]
          rw [← h2] at hb
          simp [← h2, hb]
        · rw [if_neg (by tauto)]
          dsimp only
          split_ifs with hc
          · rw [Bool.and_eq_true, Bool.and_eq_true] at hc
            simp only [decide_eq_true_eq] at hc
            omega
          · rfl
  · have hf : rightB (l.drop ((l.takeWhile isUpperCh).length)) = false := by
      simpa using hb
    rw [if_neg (fun hc => hb hc.2), if_neg (fun hc => hb hc.2), if_neg (fun hc => hb hc.2)]
    simp [hf]

theorem libSearch_eq_claimLib (e : List Char) : libSearch e = claimLib e := by
  unfold libSearch claimLib
  rw [funext libMatchAt_eq_claimMatchAt]

/-- C5 (amended): for every line that reaches the library-code step, the
library field is the leftmost token of two to four consecutive uppercase
letters bounded by non-word characters (letters, digits and underscore
count as word characters) in the whole trimmed line. -/
theorem c5_library_amended (line : String)
    (h1 : stripL line.data ≠ [])
    (h2 : stripL line.data ≠ headerL)
    (h3 : ¬(containsSub seeL (stripL line.data) = true ∧
            (stripL line.data).count '.' ≤ 2))
    (h5 : ¬((splitOnSub (stripL line.data) dotSpaceL).length < 2)) :
    (parse_bibliography_entry line).map Entry.library =
      some ((claimLib (stripL line.data)).map String.mk) := by
  unfold parse_bibliography_entry
  rw [if_neg (by tauto)]
  unfold segmentEntry
  rw [if_neg h3, if_neg h5]
  rw [← libSearch_eq_claimLib]
  simp [generalCascade]

/-- Witness for C5 at the line `"Doe, Jane. A Book. NYU"`, whose library
code is `"NYU"`. -/
theorem c5_library_witness :
    stripL ("Doe, Jane. A Book. NYU").data ≠ [] ∧
      stripL ("Doe, Jane. A Book. NYU").data ≠ headerL ∧
      ¬(containsSub seeL (stripL ("Doe, Jane. A Book. NYU").data) = true ∧
        (stripL ("Doe, Jane. A Book. NYU").data).count '.' ≤ 2) ∧
      ¬((splitOnSub (stripL ("Doe, Jane. A Book. NYU").data) dotSpaceL).length < 2) ∧
      claimLib (stripL ("Doe, Jane. A Book. NYU").data) = some (("NYU").data) ∧
      (parse_bibliography_entry ("Doe, Jane. A Book. NYU")).map Entry.library =
        some ((claimLib (stripL ("Doe, Jane. A Book. NYU").data)).map String.mk) :=
  ⟨by decide, by decide, by decide, by decide, by decide,
    c5_library_amended ("Doe, Jane. A Book. NYU")
      (by decide) (by decide) (by decide) (by decide)⟩

/-- Counterexample for C5 as stated: in `"Smith. AB1"` (which reaches the
library-code step) the literal claim wording — bounded by non-letter
characters — designates the token `"AB"` (the digit `1` is not a letter),
but the code finds no library code at all, because `\b` treats the digit as
a word character. -/
theorem c5_library_counterexample :
    claimLibLetter (stripL ("Smith. AB1").data) = some (("AB").data) ∧
      (parse_bibliography_entry ("Smith. AB1")).map Entry.library = some none ∧
      containsSub seeL (stripL ("Smith. AB1").data) = false ∧
      (splitOnSub (stripL ("Smith. AB1").data) dotSpaceL).length = 2 := by
  decide

/-! ### C7: degradation to messages -/

/-- C7: `query_word_frequency` against a missing database file faults — the
connect call silently creates an empty database and the `SELECT` raises an
uncaught `sqlite3.OperationalError` — while `clear_word_frequencies` on a
missing file or a missing table degrades to a descriptive message, as the
claim demands of every operation. -/
theorem c7_query_missing_db_faults :
    (query_word_frequency ("ocr") none).1 =
        Except.error ("sqlite3.OperationalError: no such table: word_freq") ∧
      (clear_word_frequencies none).1 =
        Except.ok ("Error: Database file not found at word_freq.db") ∧
      (clear_word_frequencies (some (WordDb.mk none))).1 =
        Except.ok ("Table word_freq does not exist in word_freq.db. Nothing to delete.") :=
  ⟨rfl, rfl, rfl⟩

/-! ### C10: case-insensitive word frequencies -/

/-- C10: storing lowercases the text and querying lowercases the word, so
two case variants of a word query to the same count against any state of
the store. -/
theorem c10_case_insensitive (text : String) (tbl : List (String × Nat)) (w v : String)
    (h : pyLower w = pyLower v) :
    wfLookup (store_word_frequencies text tbl) w =
      wfLookup (store_word_frequencies text tbl) v := by
  unfold wfLookup
  rw [h]

/-- Witness for C10: after storing `"Hello hello"`, the queries `"HELLO"`
and `"hello"` agree (both count 2). -/
theorem c10_case_insensitive_witness :
    pyLower ("HELLO") = pyLower ("hello") ∧
      wfLookup (store_word_frequencies ("Hello hello") []) ("HELLO") =
        wfLookup (store_word_frequencies ("Hello hello") []) ("hello") ∧
      wfLookup (store_word_frequencies ("Hello hello") []) ("HELLO") = some 2 :=
  ⟨by decide, c10_case_insensitive ("Hello hello") [] ("HELLO") ("hello") (by decide),
    by decide⟩

/-! ### C8: the counters of the batch ingestor -/

theorem foldl_processEntry (ins : Entry → String → Bool) :
    ∀ (lines : List String) (c : IngestCounts),
      lines.foldl (processEntry ins) c =
        { total_entries := c.total_entries +
            ((lines.filterMap lineRecord).filter (fun r => ins r.1 r.2)).length,
          processed_files := c.processed_files,
          failed_entries := c.failed_entries +
            ((lines.filterMap lineRecord).filter (fun r => !(ins r.1 r.2))).length } := by
  intro lines
  induction lines with
  | nil => intro c; simp
  | cons l rest ih =>
    intro c
    rw [List.foldl_cons, List.filterMap_cons]
    cases hr : lineRecord l with
    | none =>
      have hpe : processEntry ins c l = c := by
        unfold processEntry
        unfold lineRecord at hr
        by_cases hg : l = ("Author Entries") ∨ l = ""
        · rw [if_pos hg]
        · rw [if_neg hg]
          rw [if_neg hg] at hr
          cases hp : parse_bibliography_entry l with
          | none => rfl
          | some p =>
            rw [hp] at hr
            simp at hr
      rw [hpe, ih c]
    | some r =>
      unfold lineRecord at hr
      by_cases hg : l = ("Author Entries") ∨ l = ""
      · rw [if_pos hg] at hr
        exact absurd hr (by simp)
      · rw [if_neg hg] at hr
        cases hp : parse_bibliography_entry l with
        | none =>
          rw [hp] at hr
          simp at hr
        | some p =>
          rw [hp] at hr
          simp only [Option.map_some'] at hr
          injection hr with hr
          subst hr
          have hpe : processEntry ins c l =
              if ins p l then { c with total_entries := c.total_entries + 1 }
              else { c with failed_entries := c.failed_entries + 1 } := by
            unfold processEntry
            rw [if_neg hg, hp]
          rw [hpe]
          by_cases hins : ins p l = true
          · rw [if_pos hins, ih]
            simp [List.filter_cons, hins, IngestCounts.mk.injEq]
            omega
          · rw [if_neg hins, ih]
            have hins2 : ins p l = false := by
              simpa using hins
            simp [List.filter_cons, hins2, IngestCounts.mk.injEq]
            omega

theorem foldl_processFile (ins : Entry → String → Bool) :
    ∀ (files : List FileRead) (c : IngestCounts),
      files.foldl (processFile ins) c =
        { total_entries := c.total_entries +
            ((contentsOf files).map
              (fun ct => ((fileRecords ct).filter (fun r => ins r.1 r.2)).length)).sum,
          processed_files := c.processed_files + (files.filter FileRead.isOk).length,
          failed_entries := c.failed_entries +
            ((contentsOf files).map
              (fun ct => ((fileRecords ct).filter (fun r => !(ins r.1 r.2))).length)).sum } := by
  intro files
  induction files with
  | nil => intro c; simp [contentsOf]
  | cons fr rest ih =>
    intro c
    rw [List.foldl_cons]
    cases fr with
    | err =>
      have h1 : contentsOf (FileRead.err :: rest) = contentsOf rest := by
        unfold contentsOf
        rw [List.filterMap_cons]
      have h2 : processFile ins c FileRead.err = c := rfl
      rw [h2, ih c, h1]
      simp [FileRead.isOk, List.filter_cons]
    | ok ct =>
      have h1 : contentsOf (FileRead.ok ct :: rest) = ct :: contentsOf rest := by
        unfold contentsOf
        rw [List.filterMap_cons]
      have h2 : processFile ins c (FileRead.ok ct) =
          { total_entries := c.total_entries +
              ((fileRecords ct).filter (fun r => ins r.1 r.2)).length,
            processed_files := c.processed_files + 1,
            failed_entries := c.failed_entries +
              ((fileRecords ct).filter (fun r => !(ins r.1 r.2))).length } := by
        simp only [processFile]
        rw [foldl_processEntry]
        simp [fileRecords]
      rw [h2, ih, h1]
      simp [FileRead.isOk, List.filter_cons, IngestCounts.mk.injEq]
      omega

/-- C8: after any batch run, `processed_files` is exactly the number of
files read without an I/O error, `total_entries` is exactly the number of
parsed records the store accepted, and `failed_entries` is exactly the
number of parsed records the store rejected; per-record rejections and
file read errors leave the remaining work untouched, since the totals are
the full sums over all readable files. -/
theorem c8_ingest_counts (ins : Entry → String → Bool) (files : List FileRead) :
    process_ground_truth_folder ins files =
      { total_entries :=
          ((contentsOf files).map
            (fun ct => ((fileRecords ct).filter (fun r => ins r.1 r.2)).length)).sum,
        processed_files := (files.filter FileRead.isOk).length,
        failed_entries :=
          ((contentsOf files).map
            (fun ct => ((fileRecords ct).filter (fun r => !(ins r.1 r.2))).length)).sum } := by
  unfold process_ground_truth_folder
  rw [foldl_processFile]
  simp
